import Mathlib

/-
Verification of the pricing / rebalance core of `kn-reserve-mgr`
(`src/kyberReserve/analysis.py`), shallowly embedded in Lean 4.

Python floats are embedded as rationals (ℚ); Python exceptions
(`ZeroDivisionError` on float division by zero, `IndexError` on
out-of-range list indexing) are embedded as an explicit error type, and
the fallible functions return `Except PyErr _`.
-/

namespace KyberReserve

/-- Runtime errors the embedded Python code can raise. -/
inductive PyErr
  | zeroDivision
  | indexError
deriving DecidableEq

instance {ε α : Type} [DecidableEq ε] [DecidableEq α] : DecidableEq (Except ε α) := fun x y =>
  match x, y with
  | .error a, .error b =>
    if h : a = b then isTrue (congrArg Except.error h)
    else isFalse (fun hc => h (Except.error.inj hc))
  | .error _, .ok _ => isFalse (fun hc => Except.noConfusion hc)
  | .ok _, .error _ => isFalse (fun hc => Except.noConfusion hc)
  | .ok a, .ok b =>
    if h : a = b then isTrue (congrArg Except.ok h)
    else isFalse (fun hc => h (Except.ok.inj hc))

/-- Which book side; mirrors `class Side(Enum)` (`analysis.py:204`). -/
inductive Side
  | BID
  | ASK
deriving DecidableEq

/-- One price/size point; mirrors `@dataclass Level` (`analysis.py:209`). -/
structure Level where
  level : ℚ
  price : ℚ
deriving DecidableEq

/-- PWI quadratic curve parameters; mirrors `@dataclass PWI` (`analysis.py:218`). -/
structure PWI where
  qA : ℚ
  qB : ℚ
  qC : ℚ
  min_min : ℚ
deriving DecidableEq

/-- Mirrors `PWI.calculate` (`analysis.py:225`). -/
def PWI.calculate (p : PWI) (x : ℚ) : ℚ :=
  (p.qA * x * x + p.qB * x + p.qC) * p.min_min

/-- The balance dict `{current, target}` passed through the pricing path. -/
structure BalDict where
  current : ℚ
  target : ℚ
deriving DecidableEq

/-- Mirrors `getMultiplier` (`analysis.py:266`). -/
def getMultiplier (isBid : Bool) : ℚ :=
  if isBid then -1 else 1

/-- Mirrors `imbalanceCalculator` (`analysis.py:272`).  Python raises
`ZeroDivisionError` on `lvl_size / lvl_p` when `lvl_p == 0`, and on the
division by `bal_dict["target"]` when the target is `0`; both are embedded
as `Except.error PyErr.zeroDivision`, in the evaluation order of the source. -/
def imbalanceCalculator (lvl_size lvl_p : ℚ) (bal_dict : BalDict)
    (maxImbal minImb multiplier : ℚ) (pwi : PWI) : Except PyErr (ℚ × ℚ) :=
  if lvl_p = 0 then .error .zeroDivision
  else
    let virtual := max (bal_dict.current - multiplier * (lvl_size / lvl_p)) 0
    if bal_dict.target = 0 then .error .zeroDivision
    else
      let imbal0 := |virtual - bal_dict.target| / bal_dict.target
      let imbal := min imbal0 maxImbal
      if imbal ≤ minImb then .ok (imbal, 0)
      else .ok (minImb, pwi.calculate imbal)

/-- Per-side static offsets, the `side_offset` dict `{bid, ask}`. -/
structure SideOffset where
  bid : ℚ
  ask : ℚ
deriving DecidableEq

/-- The `pricing_debug` input dict of `matrixSideCalculator`: parallel raw
amount/rate sequences for both sides plus `debug.volatility`. -/
structure PricingDebug where
  buy_amounts : List ℚ
  buy_rates : List ℚ
  sell_amounts : List ℚ
  sell_rates : List ℚ
  volatility : ℚ
deriving DecidableEq

/-- The per-level increment `1e-16` added to `levelSpread` (`analysis.py:336`). -/
def epsLevel : ℚ := 1 / 10 ^ 16

/-- Price normalization of one raw rate (`analysis.py:324`): for BID the rate
is divided by `10^decimals`, for ASK `10^decimals` is divided by the rate. -/
def normPrice (isBid : Bool) (tokenDecimals : ℕ) (prc : ℚ) : ℚ :=
  if isBid then prc / 10 ^ tokenDecimals else 10 ^ tokenDecimals / prc

/-- One iteration of the `for amt, prc in zip(amts, rates)` loop body of
`matrixSideCalculator` (`analysis.py:322`–`335`): given the running state
`(minImb, levelSpread)` and the raw `(amt, prc)` level, it returns the
updated floor together with the debug level `(pLvl, imbSpread)` and the
price level `(pLvl, mtxPrice)`.  The ASK normalization `10**dec / prc`
raises `ZeroDivisionError` when `prc == 0`. -/
def levelStep (bal_dict : BalDict) (maxImbal historyOffset offset volatility : ℚ)
    (pwi : PWI) (isBid : Bool) (tokenDecimals : ℕ) (minImb levelSpread amt prc : ℚ) :
    Except PyErr (ℚ × Level × Level) :=
  let pLvl := amt / 10 ^ tokenDecimals
  if ¬ isBid ∧ prc = 0 then .error .zeroDivision
  else
    let pPrice := normPrice isBid tokenDecimals prc
    let price := pPrice + historyOffset
    match imbalanceCalculator pLvl pPrice bal_dict maxImbal minImb
        (getMultiplier isBid) pwi with
    | .error e => .error e
    | .ok (minImb2, imbSpread) =>
      let spread := getMultiplier isBid * (price * (imbSpread + levelSpread) + volatility)
      let sideOffset := price * offset
      let mtxPrice := pPrice + sideOffset + spread
      .ok (minImb2, Level.mk pLvl imbSpread, Level.mk pLvl mtxPrice)

/-- The whole `for amt, prc in zip(amts, rates)` loop of `matrixSideCalculator`,
iterating `levelStep` with the running state `(minImb, levelSpread)`
threaded explicitly; `levelSpread` grows by `1e-16` each level.  An
exception inside an iteration aborts the whole call, discarding the lists
accumulated so far, exactly as in Python. -/
def matrixLoop (bal_dict : BalDict) (maxImbal historyOffset offset volatility : ℚ)
    (pwi : PWI) (isBid : Bool) (tokenDecimals : ℕ) :
    List (ℚ × ℚ) → ℚ → ℚ → Except PyErr (List Level × List Level)
  | [], _, _ => .ok ([], [])
  | (amt, prc) :: rest, minImb, levelSpread =>
    match levelStep bal_dict maxImbal historyOffset offset volatility pwi isBid
        tokenDecimals minImb levelSpread amt prc with
    | .error e => .error e
    | .ok (minImb2, dbgLevel, mtxLevel) =>
      match matrixLoop bal_dict maxImbal historyOffset offset volatility pwi isBid
          tokenDecimals rest minImb2 (levelSpread + epsLevel) with
      | .error e => .error e
      | .ok (dbg, mtx) => .ok (dbgLevel :: dbg, mtxLevel :: mtx)

/-- Mirrors `matrixSideCalculator` (`analysis.py:295`).  Returns the pair
`(imbalance_spread, matrixPrice)` of parallel `Level` lists.  The division
initializing `minImb` at `analysis.py:316` raises `ZeroDivisionError` when
`bal_dict["target"] == 0`. -/
def matrixSideCalculator (pricing_debug : PricingDebug) (bal_dict : BalDict)
    (maxImbal historyOffset : ℚ) (side_offset : SideOffset) (pwi : PWI)
    (side : Side) (tokenDecimals : ℕ) : Except PyErr (List Level × List Level) :=
  let isBid : Bool := side == Side.BID
  let amts := if isBid then pricing_debug.buy_amounts else pricing_debug.sell_amounts
  let rates := if isBid then pricing_debug.buy_rates else pricing_debug.sell_rates
  let offset := if isBid then side_offset.bid else side_offset.ask
  let volatility := pricing_debug.volatility
  if bal_dict.target = 0 then .error .zeroDivision
  else
    let minImb := |bal_dict.current - bal_dict.target| / bal_dict.target
    matrixLoop bal_dict maxImbal historyOffset offset volatility pwi isBid tokenDecimals
      (amts.zip rates) minImb 0

/-- Mirrors `@dataclass AssetTarget` (`analysis.py:377`). -/
structure AssetTarget where
  total : ℚ
  reserve : ℚ
  rebalanceThreshold : ℚ
  transferThreshold : ℚ
  minWithdrawThreshold : ℚ
  triggerRebalanceTS : ℤ
deriving DecidableEq

/-- Mirrors `@dataclass RebalanceQuadratic` (`analysis.py:389`). -/
structure RebalanceQuadratic where
  sizeA : ℚ
  sizeB : ℚ
  sizeC : ℚ
  priceA : ℚ
  priceB : ℚ
  priceC : ℚ
  priceOffset : ℚ
deriving DecidableEq

/-- Mirrors `RebalanceQuadratic.sizeCalculation` (`analysis.py:403`). -/
def RebalanceQuadratic.sizeCalculation (r : RebalanceQuadratic) (x : ℚ) : ℚ :=
  r.sizeA * x * x + r.sizeB * x + r.sizeC

/-- Mirrors `RebalanceQuadratic.priceCalculation` (`analysis.py:407`). -/
def RebalanceQuadratic.priceCalculation (r : RebalanceQuadratic) (x : ℚ) : ℚ :=
  (r.priceA * x * x + r.priceB * x + r.priceC) * r.priceOffset

/-- Mirrors `@dataclass Asset` (`analysis.py:412`). -/
structure Asset where
  id : ℤ
  symbol : String
  decimals : ℕ
  rebalanceQuadratic : RebalanceQuadratic
  target : AssetTarget
  maxImbalanceRatio : ℚ
deriving DecidableEq

/-- The nested `margin_balance` dict of an exchange sub-balance. -/
structure MarginBalance where
  free : ℚ
  borrowed : ℚ
deriving DecidableEq

/-- One exchange sub-balance dict, as read by `AssetBalance.total`. -/
structure ExchangeBalance where
  available : ℚ
  locked : ℚ
  margin_balance : MarginBalance
deriving DecidableEq

/-- Mirrors `@dataclass AssetBalance` (`analysis.py:422`). -/
structure AssetBalance where
  assetID : ℤ
  symbol : String
  reserve : ℚ
  virtual : ℚ
  exchanges : List ExchangeBalance
deriving DecidableEq

/-- Mirrors `AssetBalance.total` (`analysis.py:432`): the `tot +=` loop is the
left fold over the exchange entries. -/
def AssetBalance.total (b : AssetBalance) : ℚ :=
  b.exchanges.foldl
    (fun tot ex =>
      tot + (ex.available + ex.locked + ex.margin_balance.free - ex.margin_balance.borrowed))
    (b.reserve + b.virtual)

/-- Mirrors `@dataclass Coin` (`analysis.py:445`). -/
structure Coin where
  asset : Asset
  balance : AssetBalance
  binanceBalance : ℚ
deriving DecidableEq

/-- Mirrors `Coin.imbalance` (`analysis.py:453`). -/
def Coin.imbalance (c : Coin) : ℚ :=
  c.balance.total - c.asset.target.total

/-- Mirrors `Coin.imbalanceRatio` (`analysis.py:457`); the embedding uses
total division on ℚ, which agrees with Python wherever `target.total ≠ 0`. -/
def Coin.imbalanceRatio (c : Coin) : ℚ :=
  c.imbalance / c.asset.target.total

/-- Mirrors `Coin.rebalanceSizeOffset` (`analysis.py:461`). -/
def Coin.rebalanceSizeOffset (c : Coin) : ℚ :=
  c.asset.rebalanceQuadratic.sizeCalculation |c.imbalanceRatio|

/-- Mirrors `Coin.rebalancePriceOffset` (`analysis.py:466`); the Python
defaults are `maxRebalanceOffset = 0.004`, `minRebalanceOffset = -0.005`,
supplied explicitly at the call sites of this embedding. -/
def Coin.rebalancePriceOffset (c : Coin) (maxRebalanceOffset minRebalanceOffset : ℚ) : ℚ :=
  let x := |(|c.imbalanceRatio|) - c.asset.target.rebalanceThreshold|
  let offset := c.asset.rebalanceQuadratic.priceCalculation x
  let offset2 := min offset maxRebalanceOffset
  max offset2 minRebalanceOffset

/-- Mirrors `randReservBalanceOffset` (`analysis.py:497`).  The numpy draw
`rng.uniform(amtFrom, amtTo, size)` is external library randomness and is
abstracted as the input list `samples` (one entry per drawn sample); the
in-place ascending `pricesX.sort()` is embedded as `mergeSort`. -/
def randReservBalanceOffset (samples : List ℚ) : List ℚ :=
  samples.mergeSort

/-- Mirrors `testReserveRebalanceQuad` (`analysis.py:506`), with the random
draw abstracted as in `randReservBalanceOffset` (the parameters
`resOffsetLow`, `resOffsetHigh`, `nOffsets`, `randSeed` become the `samples`
list).  `bal.exchanges[0]["available"]` raises `IndexError` when the
exchange list is empty, embedded as `Except.error PyErr.indexError`. -/
def testReserveRebalanceQuad (reserveAmntSeed : ℚ) (samples : List ℚ)
    (exchanges : List ExchangeBalance) (asset : Asset) :
    Except PyErr (List ℚ × List ℚ) :=
  let resvBalOffsets := randReservBalanceOffset samples
  let mkCoin : ℚ → Except PyErr Coin := fun i =>
    let bal : AssetBalance :=
      { assetID := asset.id, symbol := asset.symbol, reserve := reserveAmntSeed + i
        virtual := 0, exchanges := exchanges }
    match bal.exchanges with
    | [] => .error .indexError
    | ex :: _ => .ok (Coin.mk asset bal ex.available)
  match resvBalOffsets.mapM mkCoin with
  | .error e => .error e
  | .ok usdtCoinVars =>
    .ok (usdtCoinVars.map Coin.imbalanceRatio,
         usdtCoinVars.map (fun c => c.rebalancePriceOffset 0.004 (-0.005)))

/-- The imbalance evaluator as the spec describes it (section 4.2, claim C2):
written from the spec's words, to be compared with `imbalanceCalculator`. -/
def imbalanceEvaluatorSpec (lvl_size lvl_p : ℚ) (bal_dict : BalDict)
    (maxImbal minImb multiplier : ℚ) (pwi : PWI) : ℚ × ℚ :=
  let virtual := max (bal_dict.current - multiplier * (lvl_size / lvl_p)) 0
  let imbal := min (|virtual - bal_dict.target| / bal_dict.target) maxImbal
  if imbal ≤ minImb then (imbal, 0)
  else (minImb, (pwi.qA * imbal * imbal + pwi.qB * imbal + pwi.qC) * pwi.min_min)

/-- C2: with `target > 0` and `lvl_p ≠ 0`, `imbalanceCalculator` returns exactly
the pair the spec describes: `(imbal, 0)` when the clamped imbalance is at most
the running floor, and `(minImb, (qA·x² + qB·x + qC)·min_min)` at `x = imbal`
otherwise — the floor is updated exactly when spread `0` is emitted. -/
theorem imbalanceCalculator_matches_spec (lvl_size lvl_p : ℚ) (bal_dict : BalDict)
    (maxImbal minImb multiplier : ℚ) (pwi : PWI)
    (ht : 0 < bal_dict.target) (hp : lvl_p ≠ 0) :
    imbalanceCalculator lvl_size lvl_p bal_dict maxImbal minImb multiplier pwi =
      Except.ok (imbalanceEvaluatorSpec lvl_size lvl_p bal_dict maxImbal minImb multiplier pwi) := by
  simp only [imbalanceCalculator, imbalanceEvaluatorSpec, PWI.calculate,
    if_neg hp, if_neg ht.ne']
  split <;> rfl

/-- Witness for C2 at a concrete input. -/
theorem imbalanceCalculator_matches_spec_witness :
    0 < (BalDict.mk 100 100).target ∧ (1 : ℚ) ≠ 0 ∧
      imbalanceCalculator 1 1 (BalDict.mk 100 100) 10 0 (-1) (PWI.mk 1 1 1 1) =
        Except.ok (imbalanceEvaluatorSpec 1 1 (BalDict.mk 100 100) 10 0 (-1) (PWI.mk 1 1 1 1)) :=
  ⟨by norm_num, by norm_num,
    imbalanceCalculator_matches_spec 1 1 (BalDict.mk 100 100) 10 0 (-1) (PWI.mk 1 1 1 1)
      (by norm_num) (by norm_num)⟩

/-- C3 (amended): with `target = 0` both `imbalanceCalculator` and
`matrixSideCalculator` raise `ZeroDivisionError` (not a `ConfigurationError`,
which the code never defines); with `target < 0` no error is raised at all and
`imbalanceCalculator` returns an ordinary result. -/
theorem pricing_target_nonpositive_behaviour :
    (∀ lvl_size lvl_p bal_dict maxImbal minImb multiplier pwi, bal_dict.target = 0 →
       imbalanceCalculator lvl_size lvl_p bal_dict maxImbal minImb multiplier pwi =
         Except.error PyErr.zeroDivision) ∧
    (∀ pricing_debug bal_dict maxImbal historyOffset side_offset pwi side tokenDecimals,
       bal_dict.target = 0 →
       matrixSideCalculator pricing_debug bal_dict maxImbal historyOffset side_offset pwi
         side tokenDecimals = Except.error PyErr.zeroDivision) ∧
    (∀ lvl_size lvl_p bal_dict maxImbal minImb multiplier pwi,
       bal_dict.target < 0 → lvl_p ≠ 0 →
       ∃ r, imbalanceCalculator lvl_size lvl_p bal_dict maxImbal minImb multiplier pwi =
         Except.ok r) := by
  refine ⟨?_, ?_, ?_⟩
  · intro lvl_size lvl_p bal_dict maxImbal minImb multiplier pwi ht
    by_cases hp : lvl_p = 0 <;> simp [imbalanceCalculator, hp, ht]
  · intro pricing_debug bal_dict maxImbal historyOffset side_offset pwi side tokenDecimals ht
    simp [matrixSideCalculator, ht]
  · intro lvl_size lvl_p bal_dict maxImbal minImb multiplier pwi ht hp
    simp only [imbalanceCalculator, if_neg hp, if_neg ht.ne]
    split
    · exact ⟨_, rfl⟩
    · exact ⟨_, rfl⟩

/-- Witness for C3 (amended) at a concrete input. -/
theorem pricing_target_nonpositive_behaviour_witness :
    (BalDict.mk 5 0).target = 0 ∧
      imbalanceCalculator 0 1 (BalDict.mk 5 0) 1 0 1 (PWI.mk 0 0 0 0) =
        Except.error PyErr.zeroDivision :=
  ⟨rfl, pricing_target_nonpositive_behaviour.1 0 1 (BalDict.mk 5 0) 1 0 1 (PWI.mk 0 0 0 0) rfl⟩

/-- Counterexample to C3 as stated: a negative target (`-50`) does not make the
pricing path fail at all — `imbalanceCalculator` returns an ordinary value,
so no `ConfigurationError` is raised. -/
theorem pricing_negative_target_no_error :
    (BalDict.mk 100 (-50)).target < 0 ∧
      imbalanceCalculator 1 1 (BalDict.mk 100 (-50)) 10 0 1 (PWI.mk 0 0 0 0) =
        Except.ok (-149/50, 0) := by
  constructor
  · norm_num
  · norm_num [imbalanceCalculator, PWI.calculate, max_def, min_def, abs]

/-- C4: `Coin.rebalancePriceOffset` is exactly the clamp into
`[minOffset, maxOffset]` of the rebalance quadratic evaluated at
`x = ||imbalanceRatio| − rebalanceThreshold|`, and its value always lies in
`[minOffset, maxOffset]`. -/
theorem rebalancePriceOffset_clamps (c : Coin) (maxOffset minOffset : ℚ)
    (_ht : c.asset.target.total ≠ 0) (hb : minOffset ≤ maxOffset) :
    (c.rebalancePriceOffset maxOffset minOffset =
       max minOffset
         (min ((c.asset.rebalanceQuadratic.priceA *
                  (|(|c.imbalanceRatio|) - c.asset.target.rebalanceThreshold|) *
                  (|(|c.imbalanceRatio|) - c.asset.target.rebalanceThreshold|) +
                c.asset.rebalanceQuadratic.priceB *
                  (|(|c.imbalanceRatio|) - c.asset.target.rebalanceThreshold|) +
                c.asset.rebalanceQuadratic.priceC) *
               c.asset.rebalanceQuadratic.priceOffset)
            maxOffset)) ∧
    minOffset ≤ c.rebalancePriceOffset maxOffset minOffset ∧
    c.rebalancePriceOffset maxOffset minOffset ≤ maxOffset := by
  refine ⟨?_, ?_, ?_⟩
  · simp only [Coin.rebalancePriceOffset, RebalanceQuadratic.priceCalculation]
    exact max_comm _ _
  · simp only [Coin.rebalancePriceOffset]
    exact le_max_right _ _
  · simp only [Coin.rebalancePriceOffset]
    exact max_le (min_le_right _ _) hb

/-- Witness for C4 at a concrete coin, with the default bounds. -/
theorem rebalancePriceOffset_clamps_witness :
    (Coin.mk (Asset.mk 0 "USDT" 6 (RebalanceQuadratic.mk 0 0 0 1 1 1 1)
        (AssetTarget.mk 1000 0 0 0 0 0) 0)
      (AssetBalance.mk 0 "USDT" 1200 0 []) 0).asset.target.total ≠ 0 ∧
    (-(5/1000) : ℚ) ≤ 4/1000 ∧
    -(5/1000) ≤ (Coin.mk (Asset.mk 0 "USDT" 6 (RebalanceQuadratic.mk 0 0 0 1 1 1 1)
        (AssetTarget.mk 1000 0 0 0 0 0) 0)
      (AssetBalance.mk 0 "USDT" 1200 0 []) 0).rebalancePriceOffset (4/1000) (-(5/1000)) :=
  ⟨by norm_num, by norm_num,
    (rebalancePriceOffset_clamps
      (Coin.mk (Asset.mk 0 "USDT" 6 (RebalanceQuadratic.mk 0 0 0 1 1 1 1)
        (AssetTarget.mk 1000 0 0 0 0 0) 0)
        (AssetBalance.mk 0 "USDT" 1200 0 []) 0) (4/1000) (-(5/1000))
      (by norm_num) (by norm_num)).2.1⟩

/-- The net contribution of one exchange sub-balance to the total. -/
def exchangeNet (ex : ExchangeBalance) : ℚ :=
  ex.available + ex.locked + ex.margin_balance.free - ex.margin_balance.borrowed

lemma foldl_exchangeNet (l : List ExchangeBalance) (init : ℚ) :
    l.foldl (fun tot ex =>
        tot + (ex.available + ex.locked + ex.margin_balance.free - ex.margin_balance.borrowed))
      init = init + (l.map exchangeNet).sum := by
  induction l generalizing init with
  | nil => simp
  | cons ex l ih =>
    simp only [List.foldl_cons, List.map_cons, List.sum_cons, ih, exchangeNet]
    ring

/-- C7: `AssetBalance.total` is reserve + virtual + the sum of the exchange
nets, `Coin.imbalance` is `total − target.total`, `Coin.imbalanceRatio` is
`imbalance / target.total` when the target is nonzero, and the concrete
round-trip (`target.total = 1000`, `reserve = 1200`, `virtual = 0`, no
exchanges) gives imbalance `200` and ratio `1/5`. -/
theorem assetBalance_total_imbalance_roundtrip :
    (∀ b : AssetBalance, b.total = b.reserve + b.virtual + (b.exchanges.map exchangeNet).sum) ∧
    (∀ c : Coin, c.imbalance = c.balance.total - c.asset.target.total) ∧
    (∀ c : Coin, c.asset.target.total ≠ 0 →
       c.imbalanceRatio = c.imbalance / c.asset.target.total) ∧
    Coin.imbalance (Coin.mk (Asset.mk 0 "X" 18 (RebalanceQuadratic.mk 0 0 0 0 0 0 0)
        (AssetTarget.mk 1000 0 0 0 0 0) 0) (AssetBalance.mk 0 "X" 1200 0 []) 0) = 200 ∧
    Coin.imbalanceRatio (Coin.mk (Asset.mk 0 "X" 18 (RebalanceQuadratic.mk 0 0 0 0 0 0 0)
        (AssetTarget.mk 1000 0 0 0 0 0) 0) (AssetBalance.mk 0 "X" 1200 0 []) 0) = 1/5 := by
  refine ⟨?_, fun c => rfl, fun c _ => rfl, ?_, ?_⟩
  · intro b
    simpa [AssetBalance.total] using foldl_exchangeNet b.exchanges (b.reserve + b.virtual)
  · norm_num [Coin.imbalance, AssetBalance.total]
  · norm_num [Coin.imbalanceRatio, Coin.imbalance, AssetBalance.total]

/-- Witness for C7's conditional conjunct at a concrete coin. -/
theorem assetBalance_total_imbalance_roundtrip_witness :
    (Coin.mk (Asset.mk 0 "X" 18 (RebalanceQuadratic.mk 0 0 0 0 0 0 0)
        (AssetTarget.mk 1000 0 0 0 0 0) 0)
      (AssetBalance.mk 0 "X" 1200 0 []) 0).asset.target.total ≠ 0 ∧
    (Coin.mk (Asset.mk 0 "X" 18 (RebalanceQuadratic.mk 0 0 0 0 0 0 0)
        (AssetTarget.mk 1000 0 0 0 0 0) 0)
      (AssetBalance.mk 0 "X" 1200 0 []) 0).imbalanceRatio =
      (Coin.mk (Asset.mk 0 "X" 18 (RebalanceQuadratic.mk 0 0 0 0 0 0 0)
        (AssetTarget.mk 1000 0 0 0 0 0) 0)
      (AssetBalance.mk 0 "X" 1200 0 []) 0).imbalance / 1000 :=
  ⟨by norm_num,
    assetBalance_total_imbalance_roundtrip.2.2.1
      (Coin.mk (Asset.mk 0 "X" 18 (RebalanceQuadratic.mk 0 0 0 0 0 0 0)
        (AssetTarget.mk 1000 0 0 0 0 0) 0)
        (AssetBalance.mk 0 "X" 1200 0 []) 0) (by norm_num)⟩

lemma imbalanceCalculator_floor (lvl_size lvl_p : ℚ) (bal_dict : BalDict)
    (maxImbal minImb multiplier : ℚ) (pwi : PWI) (f s : ℚ)
    (h : imbalanceCalculator lvl_size lvl_p bal_dict maxImbal minImb multiplier pwi =
      Except.ok (f, s)) :
    f ≤ minImb ∧ (f < minImb → s = 0) := by
  by_cases hp : lvl_p = 0
  · simp [imbalanceCalculator, hp] at h
  · by_cases ht : bal_dict.target = 0
    · simp [imbalanceCalculator, hp, ht] at h
    · simp only [imbalanceCalculator, if_neg hp, if_neg ht] at h
      split at h <;> simp only [Except.ok.injEq, Prod.mk.injEq] at h <;>
        obtain ⟨h1, h2⟩ := h <;> subst h1 <;> subst h2
      · exact ⟨by assumption, fun _ => rfl⟩
      · exact ⟨le_refl _, fun hlt => absurd hlt (lt_irrefl _)⟩

lemma imbalanceCalculator_spread_of_max_le (lvl_size lvl_p : ℚ) (bal_dict : BalDict)
    (maxImbal minImb multiplier : ℚ) (pwi : PWI) (f s : ℚ)
    (hm : maxImbal ≤ minImb)
    (h : imbalanceCalculator lvl_size lvl_p bal_dict maxImbal minImb multiplier pwi =
      Except.ok (f, s)) :
    s = 0 := by
  by_cases hp : lvl_p = 0
  · simp [imbalanceCalculator, hp] at h
  · by_cases ht : bal_dict.target = 0
    · simp [imbalanceCalculator, hp, ht] at h
    · simp only [imbalanceCalculator, if_neg hp, if_neg ht] at h
      rw [if_pos ((min_le_right _ _).trans hm)] at h
      simp only [Except.ok.injEq, Prod.mk.injEq] at h
      exact h.2.symm

lemma imbalanceCalculator_isOk (lvl_size lvl_p : ℚ) (bal_dict : BalDict)
    (maxImbal minImb multiplier : ℚ) (pwi : PWI)
    (hp : lvl_p ≠ 0) (ht : bal_dict.target ≠ 0) :
    ∃ f s, imbalanceCalculator lvl_size lvl_p bal_dict maxImbal minImb multiplier pwi =
      Except.ok (f, s) := by
  simp only [imbalanceCalculator, if_neg hp, if_neg ht]
  split
  · exact ⟨_, _, rfl⟩
  · exact ⟨_, _, rfl⟩

lemma levelStep_ok_spec (bal_dict : BalDict) (maxImbal historyOffset offset volatility : ℚ)
    (pwi : PWI) (isBid : Bool) (tokenDecimals : ℕ) (minImb levelSpread amt prc minImb2 : ℚ)
    (d m : Level)
    (h : levelStep bal_dict maxImbal historyOffset offset volatility pwi isBid tokenDecimals
      minImb levelSpread amt prc = Except.ok (minImb2, d, m)) :
    imbalanceCalculator (amt / 10 ^ tokenDecimals) (normPrice isBid tokenDecimals prc)
        bal_dict maxImbal minImb (getMultiplier isBid) pwi = Except.ok (minImb2, d.price) ∧
    d.level = amt / 10 ^ tokenDecimals ∧
    m.level = amt / 10 ^ tokenDecimals ∧
    m.price = normPrice isBid tokenDecimals prc +
      (normPrice isBid tokenDecimals prc + historyOffset) * offset +
      getMultiplier isBid *
        ((normPrice isBid tokenDecimals prc + historyOffset) * (d.price + levelSpread) +
          volatility) := by
  by_cases hguard : ¬ isBid ∧ prc = 0
  · simp [levelStep, hguard] at h
  · simp only [levelStep, if_neg hguard] at h
    cases hic : imbalanceCalculator (amt / 10 ^ tokenDecimals)
        (normPrice isBid tokenDecimals prc) bal_dict maxImbal minImb
        (getMultiplier isBid) pwi with
    | error e => rw [hic] at h; simp at h
    | ok fs =>
      obtain ⟨f, s⟩ := fs
      rw [hic] at h
      simp only [Except.ok.injEq, Prod.mk.injEq] at h
      obtain ⟨h1, h2, h3⟩ := h
      subst h1
      subst h2
      subst h3
      exact ⟨rfl, rfl, rfl, rfl⟩

lemma levelStep_isOk (bal_dict : BalDict) (maxImbal historyOffset offset volatility : ℚ)
    (pwi : PWI) (isBid : Bool) (tokenDecimals : ℕ) (minImb levelSpread amt prc : ℚ)
    (hprc : prc ≠ 0) (ht : bal_dict.target ≠ 0) :
    ∃ minImb2 d m, levelStep bal_dict maxImbal historyOffset offset volatility pwi isBid
      tokenDecimals minImb levelSpread amt prc = Except.ok (minImb2, d, m) := by
  have hguard : ¬ (¬ isBid ∧ prc = 0) := fun hc => hprc hc.2
  have hppos : normPrice isBid tokenDecimals prc ≠ 0 := by
    have h10 : (10 : ℚ) ^ tokenDecimals ≠ 0 := pow_ne_zero _ (by norm_num)
    cases isBid with
    | false => simpa [normPrice] using div_ne_zero h10 hprc
    | true => simpa [normPrice] using div_ne_zero hprc h10
  obtain ⟨f, s, hic⟩ := imbalanceCalculator_isOk (amt / 10 ^ tokenDecimals)
    (normPrice isBid tokenDecimals prc) bal_dict maxImbal minImb (getMultiplier isBid) pwi
    hppos ht
  refine ⟨f, Level.mk (amt / 10 ^ tokenDecimals) s,
    Level.mk (amt / 10 ^ tokenDecimals)
      (normPrice isBid tokenDecimals prc +
        (normPrice isBid tokenDecimals prc + historyOffset) * offset +
        getMultiplier isBid *
          ((normPrice isBid tokenDecimals prc + historyOffset) * (s + levelSpread) +
            volatility)), ?_⟩
  simp only [levelStep, if_neg hguard, hic]

lemma matrixLoop_ok_lengths (bal_dict : BalDict)
    (maxImbal historyOffset offset volatility : ℚ) (pwi : PWI) (isBid : Bool)
    (tokenDecimals : ℕ) :
    ∀ (pairs : List (ℚ × ℚ)) (minImb levelSpread : ℚ) (dbg mtx : List Level),
      matrixLoop bal_dict maxImbal historyOffset offset volatility pwi isBid tokenDecimals
        pairs minImb levelSpread = Except.ok (dbg, mtx) →
      dbg.length = pairs.length ∧ mtx.length = pairs.length := by
  intro pairs
  induction pairs with
  | nil =>
    intro minImb levelSpread dbg mtx h
    simp only [matrixLoop, Except.ok.injEq, Prod.mk.injEq] at h
    obtain ⟨h1, h2⟩ := h
    subst h1; subst h2
    exact ⟨rfl, rfl⟩
  | cons p rest ih =>
    intro minImb levelSpread dbg mtx h
    obtain ⟨amt, prc⟩ := p
    rw [matrixLoop] at h
    split at h
    · exact absurd h (by simp)
    · rename_i out minImb2 dLvl mLvl hstep
      split at h
      · exact absurd h (by simp)
      · rename_i out2 dbg2 mtx2 hrec
        simp only [Except.ok.injEq, Prod.mk.injEq] at h
        obtain ⟨h1, h2⟩ := h
        subst h1; subst h2
        obtain ⟨ih1, ih2⟩ := ih minImb2 (levelSpread + epsLevel) dbg2 mtx2 hrec
        simp [ih1, ih2]

lemma matrixLoop_isOk (bal_dict : BalDict)
    (maxImbal historyOffset offset volatility : ℚ) (pwi : PWI) (isBid : Bool)
    (tokenDecimals : ℕ) (ht : bal_dict.target ≠ 0) :
    ∀ (pairs : List (ℚ × ℚ)), (∀ r ∈ pairs, r.2 ≠ 0) → ∀ (minImb levelSpread : ℚ),
      ∃ dbg mtx, matrixLoop bal_dict maxImbal historyOffset offset volatility pwi isBid
        tokenDecimals pairs minImb levelSpread = Except.ok (dbg, mtx) := by
  intro pairs
  induction pairs with
  | nil => exact fun _ _ _ => ⟨[], [], rfl⟩
  | cons p rest ih =>
    intro hmem minImb levelSpread
    obtain ⟨amt, prc⟩ := p
    have hprc : prc ≠ 0 := hmem (amt, prc) (List.mem_cons_self _ _)
    obtain ⟨minImb2, dLvl, mLvl, hstep⟩ := levelStep_isOk bal_dict maxImbal historyOffset
      offset volatility pwi isBid tokenDecimals minImb levelSpread amt prc hprc ht
    obtain ⟨dbg2, mtx2, hrec⟩ := ih (fun r hr => hmem r (List.mem_cons_of_mem _ hr))
      minImb2 (levelSpread + epsLevel)
    exact ⟨dLvl :: dbg2, mLvl :: mtx2, by simp only [matrixLoop, hstep, hrec]⟩

lemma matrixLoop_price_formula (bal_dict : BalDict)
    (maxImbal historyOffset offset volatility : ℚ) (pwi : PWI) (isBid : Bool)
    (tokenDecimals : ℕ) :
    ∀ (pairs : List (ℚ × ℚ)) (minImb levelSpread : ℚ) (dbg mtx : List Level),
      matrixLoop bal_dict maxImbal historyOffset offset volatility pwi isBid tokenDecimals
        pairs minImb levelSpread = Except.ok (dbg, mtx) →
      ∀ (i : ℕ) (pair : ℚ × ℚ), pairs[i]? = some pair →
        ∃ d m, dbg[i]? = some d ∧ mtx[i]? = some m ∧
          m.price = normPrice isBid tokenDecimals pair.2 +
            (normPrice isBid tokenDecimals pair.2 + historyOffset) * offset +
            getMultiplier isBid *
              ((normPrice isBid tokenDecimals pair.2 + historyOffset) *
                (d.price + (levelSpread + i * epsLevel)) + volatility) := by
  intro pairs
  induction pairs with
  | nil => intro minImb levelSpread dbg mtx h i pair hpair; simp at hpair
  | cons p rest ih =>
    intro minImb levelSpread dbg mtx h i pair hpair
    obtain ⟨amt, prc⟩ := p
    rw [matrixLoop] at h
    split at h
    · exact absurd h (by simp)
    · rename_i out minImb2 dLvl mLvl hstep
      split at h
      · exact absurd h (by simp)
      · rename_i out2 dbg2 mtx2 hrec
        simp only [Except.ok.injEq, Prod.mk.injEq] at h
        obtain ⟨h1, h2⟩ := h
        subst h1; subst h2
        cases i with
        | zero =>
          simp only [List.getElem?_cons_zero, Option.some.injEq] at hpair
          subst hpair
          obtain ⟨_, _, _, hm⟩ := levelStep_ok_spec bal_dict maxImbal historyOffset offset
            volatility pwi isBid tokenDecimals minImb levelSpread amt prc minImb2 dLvl mLvl
            hstep
          refine ⟨dLvl, mLvl, by simp, by simp, ?_⟩
          simpa using hm
        | succ j =>
          simp only [List.getElem?_cons_succ] at hpair
          obtain ⟨d, m, hd, hm, hprice⟩ := ih minImb2 (levelSpread + epsLevel) dbg2 mtx2
            hrec j pair hpair
          refine ⟨d, m, by simpa using hd, by simpa using hm, ?_⟩
          rw [hprice]
          have harith : levelSpread + epsLevel + j * epsLevel =
              levelSpread + ((j : ℚ) + 1) * epsLevel := by ring
          rw [harith]
          norm_num

/-- The sequence of successive `minImb` running-floor values threaded through
one ladder pass: starting from the initial floor, each level's state update is
the same `levelStep` used by `matrixLoop`, and the trace stops where the pass
would raise. -/
def floorSeq (bal_dict : BalDict) (maxImbal historyOffset offset volatility : ℚ)
    (pwi : PWI) (isBid : Bool) (tokenDecimals : ℕ) :
    List (ℚ × ℚ) → ℚ → ℚ → List ℚ
  | [], minImb, _ => [minImb]
  | (amt, prc) :: rest, minImb, levelSpread =>
    minImb ::
      (match levelStep bal_dict maxImbal historyOffset offset volatility pwi isBid
          tokenDecimals minImb levelSpread amt prc with
       | .error _ => []
       | .ok (minImb2, _, _) =>
         floorSeq bal_dict maxImbal historyOffset offset volatility pwi isBid tokenDecimals
           rest minImb2 (levelSpread + epsLevel))

lemma floorSeq_head (bal_dict : BalDict) (maxImbal historyOffset offset volatility : ℚ)
    (pwi : PWI) (isBid : Bool) (tokenDecimals : ℕ)
    (pairs : List (ℚ × ℚ)) (minImb levelSpread : ℚ) :
    (floorSeq bal_dict maxImbal historyOffset offset volatility pwi isBid tokenDecimals
      pairs minImb levelSpread).head? = some minImb := by
  cases pairs with
  | nil => rfl
  | cons p rest => obtain ⟨amt, prc⟩ := p; rw [floorSeq]; rfl

lemma floorSeq_chain (bal_dict : BalDict) (maxImbal historyOffset offset volatility : ℚ)
    (pwi : PWI) (isBid : Bool) (tokenDecimals : ℕ) :
    ∀ (pairs : List (ℚ × ℚ)) (minImb levelSpread : ℚ),
      List.Chain' (fun a b => b ≤ a)
        (floorSeq bal_dict maxImbal historyOffset offset volatility pwi isBid tokenDecimals
          pairs minImb levelSpread) := by
  intro pairs
  induction pairs with
  | nil => intro minImb levelSpread; simp [floorSeq]
  | cons p rest ih =>
    intro minImb levelSpread
    obtain ⟨amt, prc⟩ := p
    rw [floorSeq]
    cases hstep : levelStep bal_dict maxImbal historyOffset offset volatility pwi isBid
        tokenDecimals minImb levelSpread amt prc with
    | error e => simp
    | ok out =>
      obtain ⟨minImb2, dLvl, mLvl⟩ := out
      rw [List.chain'_cons']
      constructor
      · intro y hy
        rw [floorSeq_head] at hy
        obtain ⟨hic, -, -, -⟩ := levelStep_ok_spec bal_dict maxImbal historyOffset offset
          volatility pwi isBid tokenDecimals minImb levelSpread amt prc minImb2 dLvl mLvl
          hstep
        have := (imbalanceCalculator_floor _ _ _ _ _ _ _ _ _ hic).1
        simp only [Option.mem_def, Option.some.injEq] at hy
        subst hy
        exact this
      · exact ih minImb2 (levelSpread + epsLevel)

lemma floorSeq_length_of_ok (bal_dict : BalDict)
    (maxImbal historyOffset offset volatility : ℚ) (pwi : PWI) (isBid : Bool)
    (tokenDecimals : ℕ) :
    ∀ (pairs : List (ℚ × ℚ)) (minImb levelSpread : ℚ) (dbg mtx : List Level),
      matrixLoop bal_dict maxImbal historyOffset offset volatility pwi isBid tokenDecimals
        pairs minImb levelSpread = Except.ok (dbg, mtx) →
      (floorSeq bal_dict maxImbal historyOffset offset volatility pwi isBid tokenDecimals
        pairs minImb levelSpread).length = pairs.length + 1 := by
  intro pairs
  induction pairs with
  | nil => intro minImb levelSpread dbg mtx _; rfl
  | cons p rest ih =>
    intro minImb levelSpread dbg mtx h
    obtain ⟨amt, prc⟩ := p
    rw [matrixLoop] at h
    split at h
    · exact absurd h (by simp)
    · rename_i out minImb2 dLvl mLvl hstep
      split at h
      · exact absurd h (by simp)
      · rename_i out2 dbg2 mtx2 hrec
        rw [floorSeq, hstep]
        simp [ih minImb2 (levelSpread + epsLevel) dbg2 mtx2 hrec]

/-- C8: every `imbalanceCalculator` call returns a floor at most the input
floor, and the floor strictly decreases only in the branch that emits spread
`0`; consequently the running `minImb` sequence threaded across the levels of
one ladder pass (`floorSeq`, which iterates the same `levelStep` state update
as `matrixLoop` and covers all levels whenever the pass succeeds) is
non-increasing. -/
theorem imbalance_floor_monotone :
    (∀ (lvl_size lvl_p : ℚ) (bal_dict : BalDict) (maxImbal minImb multiplier : ℚ)
       (pwi : PWI) (f s : ℚ),
       imbalanceCalculator lvl_size lvl_p bal_dict maxImbal minImb multiplier pwi =
         Except.ok (f, s) →
       f ≤ minImb ∧ (f < minImb → s = 0)) ∧
    (∀ (bal_dict : BalDict) (maxImbal historyOffset offset volatility : ℚ) (pwi : PWI)
       (isBid : Bool) (tokenDecimals : ℕ) (pairs : List (ℚ × ℚ)) (minImb levelSpread : ℚ),
       List.Chain' (fun a b => b ≤ a)
         (floorSeq bal_dict maxImbal historyOffset offset volatility pwi isBid tokenDecimals
           pairs minImb levelSpread)) ∧
    (∀ (bal_dict : BalDict) (maxImbal historyOffset offset volatility : ℚ) (pwi : PWI)
       (isBid : Bool) (tokenDecimals : ℕ) (pairs : List (ℚ × ℚ)) (minImb levelSpread : ℚ)
       (dbg mtx : List Level),
       matrixLoop bal_dict maxImbal historyOffset offset volatility pwi isBid tokenDecimals
         pairs minImb levelSpread = Except.ok (dbg, mtx) →
       (floorSeq bal_dict maxImbal historyOffset offset volatility pwi isBid tokenDecimals
         pairs minImb levelSpread).length = pairs.length + 1) :=
  ⟨fun lvl_size lvl_p bal_dict maxImbal minImb multiplier pwi f s h =>
      imbalanceCalculator_floor lvl_size lvl_p bal_dict maxImbal minImb multiplier pwi f s h,
    fun bal_dict maxImbal historyOffset offset volatility pwi isBid tokenDecimals
        pairs minImb levelSpread =>
      floorSeq_chain bal_dict maxImbal historyOffset offset volatility pwi isBid
        tokenDecimals pairs minImb levelSpread,
    fun bal_dict maxImbal historyOffset offset volatility pwi isBid tokenDecimals
        pairs minImb levelSpread dbg mtx h =>
      floorSeq_length_of_ok bal_dict maxImbal historyOffset offset volatility pwi isBid
        tokenDecimals pairs minImb levelSpread dbg mtx h⟩

/-- Witness for C8 at a concrete call: the returned floor `1/100` is at most
the input floor `1`. -/
theorem imbalance_floor_monotone_witness :
    imbalanceCalculator 1 1 (BalDict.mk 100 100) 10 1 (-1) (PWI.mk 0 0 0 1) =
      Except.ok (1/100, 0) ∧ (1/100 : ℚ) ≤ 1 := by
  have heval : imbalanceCalculator 1 1 (BalDict.mk 100 100) 10 1 (-1) (PWI.mk 0 0 0 1) =
      Except.ok (1/100, 0) := by
    norm_num [imbalanceCalculator, PWI.calculate, max_def, min_def, abs]
  exact ⟨heval,
    (imbalance_floor_monotone.1 1 1 (BalDict.mk 100 100) 10 1 (-1) (PWI.mk 0 0 0 1)
      (1/100) 0 heval).1⟩

/-- C6: on equal-length amount/rate inputs (all rates nonzero, target nonzero)
`matrixSideCalculator` succeeds and both the price ladder and the debug
imbalance trace have the input length; in particular empty inputs give two
empty lists and no error. -/
theorem matrixSideCalculator_preserves_length :
    (∀ (pricing_debug : PricingDebug) (bal_dict : BalDict) (maxImbal historyOffset : ℚ)
       (side_offset : SideOffset) (pwi : PWI) (side : Side) (tokenDecimals : ℕ)
       (amts rates : List ℚ) (n : ℕ),
       bal_dict.target ≠ 0 →
       amts = (if side == Side.BID then pricing_debug.buy_amounts
               else pricing_debug.sell_amounts) →
       rates = (if side == Side.BID then pricing_debug.buy_rates
                else pricing_debug.sell_rates) →
       (∀ r ∈ rates, r ≠ 0) → amts.length = n → rates.length = n →
       ∃ dbg mtx,
         matrixSideCalculator pricing_debug bal_dict maxImbal historyOffset side_offset pwi
           side tokenDecimals = Except.ok (dbg, mtx) ∧ dbg.length = n ∧ mtx.length = n) ∧
    (∀ (bal_dict : BalDict) (maxImbal historyOffset : ℚ) (side_offset : SideOffset)
       (pwi : PWI) (side : Side) (tokenDecimals : ℕ) (volatility : ℚ),
       bal_dict.target ≠ 0 →
       matrixSideCalculator (PricingDebug.mk [] [] [] [] volatility) bal_dict maxImbal
         historyOffset side_offset pwi side tokenDecimals = Except.ok ([], [])) := by
  constructor
  · intro pd bal_dict maxImbal historyOffset side_offset pwi side tokenDecimals amts rates n
      ht hamts hrates hr hna hnr
    obtain ⟨dbg, mtx, hok⟩ := matrixLoop_isOk bal_dict maxImbal historyOffset
      (if side == Side.BID then side_offset.bid else side_offset.ask) pd.volatility pwi
      (side == Side.BID) tokenDecimals ht (amts.zip rates)
      (fun r hmem => by
        obtain ⟨a, b⟩ := r
        exact hr b (List.of_mem_zip hmem).2)
      (|bal_dict.current - bal_dict.target| / bal_dict.target) 0
    have hlen := matrixLoop_ok_lengths bal_dict maxImbal historyOffset
      (if side == Side.BID then side_offset.bid else side_offset.ask) pd.volatility pwi
      (side == Side.BID) tokenDecimals (amts.zip rates)
      (|bal_dict.current - bal_dict.target| / bal_dict.target) 0 dbg mtx hok
    refine ⟨dbg, mtx, ?_, ?_, ?_⟩
    · simp only [matrixSideCalculator, if_neg ht]
      rw [← hamts, ← hrates]
      exact hok
    · rw [hlen.1, List.length_zip, hna, hnr, min_self]
    · rw [hlen.2, List.length_zip, hna, hnr, min_self]
  · intro bal_dict maxImbal historyOffset side_offset pwi side tokenDecimals volatility ht
    cases side <;> simp [matrixSideCalculator, matrixLoop, ht]

/-- Witness for C6 at a concrete one-level BID input. -/
theorem matrixSideCalculator_preserves_length_witness :
    (BalDict.mk 100 100).target ≠ 0 ∧
      ∃ dbg mtx,
        matrixSideCalculator (PricingDebug.mk [1] [1] [] [] 0) (BalDict.mk 100 100) 10 0
          (SideOffset.mk 0 0) (PWI.mk 0 0 0 0) Side.BID 0 = Except.ok (dbg, mtx) ∧
        dbg.length = 1 ∧ mtx.length = 1 :=
  ⟨by norm_num,
    matrixSideCalculator_preserves_length.1 (PricingDebug.mk [1] [1] [] [] 0)
      (BalDict.mk 100 100) 10 0 (SideOffset.mk 0 0) (PWI.mk 0 0 0 0) Side.BID 0 [1] [1] 1
      (by norm_num) rfl rfl (by norm_num) rfl rfl⟩

/-- C5 (amended): on mismatched amount/rate lengths `matrixSideCalculator` does
not fail — the `zip` silently truncates to the shorter sequence, and both
outputs have length `min |amounts| |rates|`; no `InputShapeError` exists in
the code. -/
theorem matrixSideCalculator_truncates_mismatch
    (pricing_debug : PricingDebug) (bal_dict : BalDict) (maxImbal historyOffset : ℚ)
    (side_offset : SideOffset) (pwi : PWI) (side : Side) (tokenDecimals : ℕ)
    (amts rates : List ℚ)
    (ht : bal_dict.target ≠ 0)
    (hamts : amts = (if side == Side.BID then pricing_debug.buy_amounts
                     else pricing_debug.sell_amounts))
    (hrates : rates = (if side == Side.BID then pricing_debug.buy_rates
                       else pricing_debug.sell_rates))
    (hr : ∀ r ∈ rates, r ≠ 0)
    (_hmismatch : amts.length ≠ rates.length) :
    ∃ dbg mtx,
      matrixSideCalculator pricing_debug bal_dict maxImbal historyOffset side_offset pwi
        side tokenDecimals = Except.ok (dbg, mtx) ∧
      dbg.length = min amts.length rates.length ∧
      mtx.length = min amts.length rates.length := by
  obtain ⟨dbg, mtx, hok⟩ := matrixLoop_isOk bal_dict maxImbal historyOffset
    (if side == Side.BID then side_offset.bid else side_offset.ask)
    pricing_debug.volatility pwi (side == Side.BID) tokenDecimals ht (amts.zip rates)
    (fun r hmem => by
      obtain ⟨a, b⟩ := r
      exact hr b (List.of_mem_zip hmem).2)
    (|bal_dict.current - bal_dict.target| / bal_dict.target) 0
  have hlen := matrixLoop_ok_lengths bal_dict maxImbal historyOffset
    (if side == Side.BID then side_offset.bid else side_offset.ask)
    pricing_debug.volatility pwi (side == Side.BID) tokenDecimals (amts.zip rates)
    (|bal_dict.current - bal_dict.target| / bal_dict.target) 0 dbg mtx hok
  refine ⟨dbg, mtx, ?_, ?_, ?_⟩
  · simp only [matrixSideCalculator, if_neg ht]
    rw [← hamts, ← hrates]
    exact hok
  · rw [hlen.1, List.length_zip]
  · rw [hlen.2, List.length_zip]

/-- Witness for C5 (amended) at a concrete mismatched input. -/
theorem matrixSideCalculator_truncates_mismatch_witness :
    (BalDict.mk 100 100).target ≠ 0 ∧ ([1, 2] : List ℚ).length ≠ ([1] : List ℚ).length ∧
      ∃ dbg mtx,
        matrixSideCalculator (PricingDebug.mk [1, 2] [1] [] [] 0) (BalDict.mk 100 100) 10 0
          (SideOffset.mk 0 0) (PWI.mk 0 0 0 0) Side.BID 0 = Except.ok (dbg, mtx) ∧
        dbg.length = min ([1, 2] : List ℚ).length ([1] : List ℚ).length ∧
        mtx.length = min ([1, 2] : List ℚ).length ([1] : List ℚ).length :=
  ⟨by norm_num, by norm_num,
    matrixSideCalculator_truncates_mismatch (PricingDebug.mk [1, 2] [1] [] [] 0)
      (BalDict.mk 100 100) 10 0 (SideOffset.mk 0 0) (PWI.mk 0 0 0 0) Side.BID 0 [1, 2] [1]
      (by norm_num) rfl rfl (by norm_num) (by norm_num)⟩

/-- Counterexample to C5 as stated: with amounts `[1, 2]` and rates `[1]`
(mismatched lengths) the call does not fail — it returns an ordinary
one-level ladder. -/
theorem matrixSideCalculator_mismatch_no_error :
    ([1, 2] : List ℚ).length ≠ ([1] : List ℚ).length ∧
      matrixSideCalculator (PricingDebug.mk [1, 2] [1] [] [] 0) (BalDict.mk 100 100) 10 0
        (SideOffset.mk 0 0) (PWI.mk 0 0 0 0) Side.BID 0 =
        Except.ok ([Level.mk 1 0], [Level.mk 1 1]) := by
  constructor
  · norm_num
  · norm_num [matrixSideCalculator, matrixLoop, levelStep, normPrice, imbalanceCalculator,
      PWI.calculate, getMultiplier, max_def, min_def, abs, epsLevel]

/-- C1 (amended): the emitted level price has the UNSHIFTED normalized price
`p` as its base: it equals `p + displayPrice·staticOffset +
multiplier·(displayPrice·(imbSpread + levelSpread) + volatility)` with
`displayPrice = p + historyOffset` and `levelSpread = i·1e-16` at index `i` —
the `historyOffset` enters only the side-offset and spread terms, not the
base of the final price. -/
theorem matrixSideCalculator_price_formula
    (pricing_debug : PricingDebug) (bal_dict : BalDict) (maxImbal historyOffset : ℚ)
    (side_offset : SideOffset) (pwi : PWI) (side : Side) (tokenDecimals : ℕ)
    (dbg mtx : List Level)
    (heq : matrixSideCalculator pricing_debug bal_dict maxImbal historyOffset side_offset
      pwi side tokenDecimals = Except.ok (dbg, mtx))
    (i : ℕ) (pair : ℚ × ℚ)
    (hpair : ((if side == Side.BID then pricing_debug.buy_amounts
               else pricing_debug.sell_amounts).zip
              (if side == Side.BID then pricing_debug.buy_rates
               else pricing_debug.sell_rates))[i]? = some pair) :
    ∃ d m, dbg[i]? = some d ∧ mtx[i]? = some m ∧
      m.price = normPrice (side == Side.BID) tokenDecimals pair.2 +
        (normPrice (side == Side.BID) tokenDecimals pair.2 + historyOffset) *
          (if side == Side.BID then side_offset.bid else side_offset.ask) +
        getMultiplier (side == Side.BID) *
          ((normPrice (side == Side.BID) tokenDecimals pair.2 + historyOffset) *
            (d.price + i * epsLevel) + pricing_debug.volatility) := by
  by_cases ht : bal_dict.target = 0
  · simp [matrixSideCalculator, ht] at heq
  · simp only [matrixSideCalculator, if_neg ht] at heq
    obtain ⟨d, m, hd, hm, hprice⟩ := matrixLoop_price_formula bal_dict maxImbal
      historyOffset (if side == Side.BID then side_offset.bid else side_offset.ask)
      pricing_debug.volatility pwi (side == Side.BID) tokenDecimals _ _ _ dbg mtx heq i
      pair hpair
    exact ⟨d, m, hd, hm, by simpa using hprice⟩

/-- Witness for C1 (amended) at a concrete one-level BID input with
`historyOffset = 1`. -/
theorem matrixSideCalculator_price_formula_witness :
    ∃ d m, ([Level.mk 1 0] : List Level)[0]? = some d ∧
      ([Level.mk 1 1] : List Level)[0]? = some m ∧
      m.price = normPrice (Side.BID == Side.BID) 0 ((1 : ℚ), (1 : ℚ)).2 +
        (normPrice (Side.BID == Side.BID) 0 ((1 : ℚ), (1 : ℚ)).2 + 1) *
          (if Side.BID == Side.BID then (SideOffset.mk 0 0).bid
           else (SideOffset.mk 0 0).ask) +
        getMultiplier (Side.BID == Side.BID) *
          ((normPrice (Side.BID == Side.BID) 0 ((1 : ℚ), (1 : ℚ)).2 + 1) *
            (d.price + (0 : ℕ) * epsLevel) + (PricingDebug.mk [1] [1] [] [] 0).volatility) :=
  matrixSideCalculator_price_formula (PricingDebug.mk [1] [1] [] [] 0) (BalDict.mk 100 100)
    10 1 (SideOffset.mk 0 0) (PWI.mk 0 0 0 0) Side.BID 0 [Level.mk 1 0] [Level.mk 1 1]
    (by norm_num [matrixSideCalculator, matrixLoop, levelStep, normPrice,
      imbalanceCalculator, PWI.calculate, getMultiplier, max_def, min_def, abs, epsLevel])
    0 (1, 1) rfl

/-- Counterexample to C1 as stated: BID level with raw amount `1`, raw rate
`1`, decimals `0`, `historyOffset = 1`, all offsets/volatility/PWI zero.  The
normalized price is `p = 1` and `displayPrice = 2`; the claim's formula
(`displayPrice` as the base) evaluates to `2`, but the emitted ladder price is
`1`: the history offset is NOT included in the base of the final price. -/
theorem matrixSideCalculator_base_excludes_historyOffset :
    matrixSideCalculator (PricingDebug.mk [1] [1] [] [] 0) (BalDict.mk 100 100) 10 1
      (SideOffset.mk 0 0) (PWI.mk 0 0 0 0) Side.BID 0 =
      Except.ok ([Level.mk 1 0], [Level.mk 1 1]) ∧
    ((1 : ℚ) + 1) + ((1 : ℚ) + 1) * 0 +
      getMultiplier true * (((1 : ℚ) + 1) * (0 + 0 * epsLevel) + 0) = 2 ∧
    (1 : ℚ) ≠ 2 := by
  refine ⟨?_, by norm_num [getMultiplier, epsLevel], by norm_num⟩
  norm_num [matrixSideCalculator, matrixLoop, levelStep, normPrice, imbalanceCalculator,
    PWI.calculate, getMultiplier, max_def, min_def, abs, epsLevel]

/-- C10 (amended): the running floor is initialized to the UNCLAMPED pre-trade
ratio `|current − target| / target` while each level's imbalance is clamped to
`maxImbalanceRatio`; hence when the pre-trade ratio is at least
`maxImbalanceRatio` the FIRST processed level of a side always receives
imbalance spread `0` (later levels may still receive a nonzero spread once the
floor has dropped below `maxImbalanceRatio`). -/
theorem matrixSideCalculator_first_level_spread_zero
    (pricing_debug : PricingDebug) (bal_dict : BalDict) (maxImbal historyOffset : ℚ)
    (side_offset : SideOffset) (pwi : PWI) (side : Side) (tokenDecimals : ℕ)
    (d : Level) (ds mtx : List Level)
    (ht : bal_dict.target ≠ 0)
    (hpre : maxImbal ≤ |bal_dict.current - bal_dict.target| / bal_dict.target)
    (heq : matrixSideCalculator pricing_debug bal_dict maxImbal historyOffset side_offset
      pwi side tokenDecimals = Except.ok (d :: ds, mtx)) :
    d.price = 0 := by
  simp only [matrixSideCalculator, if_neg ht] at heq
  cases hz : (if side == Side.BID then pricing_debug.buy_amounts
      else pricing_debug.sell_amounts).zip
      (if side == Side.BID then pricing_debug.buy_rates
       else pricing_debug.sell_rates) with
  | nil =>
    rw [hz] at heq
    simp [matrixLoop] at heq
  | cons p rest =>
    obtain ⟨amt, prc⟩ := p
    rw [hz, matrixLoop] at heq
    split at heq
    · exact absurd heq (by simp)
    · rename_i out minImb2 dLvl mLvl hstep
      split at heq
      · exact absurd heq (by simp)
      · rename_i out2 dbg2 mtx2 hrec
        simp only [Except.ok.injEq, Prod.mk.injEq, List.cons.injEq] at heq
        obtain ⟨⟨hd, -⟩, -⟩ := heq
        subst hd
        obtain ⟨hic, -, -, -⟩ := levelStep_ok_spec bal_dict maxImbal historyOffset
          (if side == Side.BID then side_offset.bid else side_offset.ask)
          pricing_debug.volatility pwi (side == Side.BID) tokenDecimals
          (|bal_dict.current - bal_dict.target| / bal_dict.target) 0 amt prc minImb2
          dLvl mLvl hstep
        exact imbalanceCalculator_spread_of_max_le _ _ _ _ _ _ _ _ _ hpre hic

/-- Witness for C10 (amended) at a concrete one-level BID input with pre-trade
ratio `1 ≥ maxImbalanceRatio = 1/2`. -/
theorem matrixSideCalculator_first_level_spread_zero_witness :
    matrixSideCalculator (PricingDebug.mk [60] [1] [] [] 0) (BalDict.mk 0 100) (1/2) 0
      (SideOffset.mk 0 0) (PWI.mk 0 0 1 1) Side.BID 0 =
      Except.ok ([Level.mk 60 0], [Level.mk 60 1]) ∧ (Level.mk 60 0).price = 0 := by
  have heval : matrixSideCalculator (PricingDebug.mk [60] [1] [] [] 0) (BalDict.mk 0 100)
      (1/2) 0 (SideOffset.mk 0 0) (PWI.mk 0 0 1 1) Side.BID 0 =
      Except.ok ([Level.mk 60 0], [Level.mk 60 1]) := by
    norm_num [matrixSideCalculator, matrixLoop, levelStep, normPrice, imbalanceCalculator,
      PWI.calculate, getMultiplier, max_def, min_def, abs, epsLevel]
  exact ⟨heval,
    matrixSideCalculator_first_level_spread_zero (PricingDebug.mk [60] [1] [] [] 0)
      (BalDict.mk 0 100) (1/2) 0 (SideOffset.mk 0 0) (PWI.mk 0 0 1 1) Side.BID 0
      (Level.mk 60 0) [] [Level.mk 60 1] (by norm_num) (by norm_num) heval⟩

/-- Counterexample to C10 as stated: BID side with pre-trade ratio `1 ≥
maxImbalanceRatio = 1/2` and two levels; the first level gets spread `0` and
drops the floor to `2/5`, after which the second level's clamped imbalance
`1/2` exceeds the floor, so it receives the nonzero PWI spread `1` — not every
level receives spread `0`. -/
theorem matrixSideCalculator_later_level_nonzero_spread :
    Except.map (fun r => r.1.map Level.price)
      (matrixSideCalculator (PricingDebug.mk [60, 200] [1, 1] [] [] 0) (BalDict.mk 0 100)
        (1/2) 0 (SideOffset.mk 0 0) (PWI.mk 0 0 1 1) Side.BID 0) =
      Except.ok [0, 1] ∧
    (1/2 : ℚ) ≤ |(BalDict.mk 0 100).current - (BalDict.mk 0 100).target| /
      (BalDict.mk 0 100).target ∧
    (1 : ℚ) ≠ 0 := by
  refine ⟨?_, by norm_num, by norm_num⟩
  norm_num [matrixSideCalculator, matrixLoop, levelStep, normPrice, imbalanceCalculator,
    PWI.calculate, getMultiplier, max_def, min_def, abs, epsLevel, Except.map]

lemma mapM_ok_of_all_ok {α β : Type} (f : α → Except PyErr β) (g : α → β)
    (hf : ∀ a, f a = Except.ok (g a)) : ∀ l : List α, l.mapM f = Except.ok (l.map g) := by
  intro l
  induction l with
  | nil => rfl
  | cons a l ih =>
    rw [List.mapM_cons, hf a, ih]
    rfl

lemma rebalancePriceOffset_le_bounds (c : Coin) (maxO minO : ℚ) (hb : minO ≤ maxO) :
    minO ≤ c.rebalancePriceOffset maxO minO ∧ c.rebalancePriceOffset maxO minO ≤ maxO := by
  unfold Coin.rebalancePriceOffset
  exact ⟨le_max_right _ _, max_le (min_le_right _ _) hb⟩

/-- C9: with `n` samples, positive target total and a nonempty exchange list,
`testReserveRebalanceQuad` returns two lists of length `n`; the imbalance
ratios are non-decreasing (the sampled offsets are sorted ascending and the
ratio is monotone in the reserve), and every price offset lies in the default
bounds `[-0.005, 0.004]`. -/
theorem testReserveRebalanceQuad_spec (reserveAmntSeed : ℚ) (samples : List ℚ)
    (exchanges : List ExchangeBalance) (asset : Asset) (n : ℕ)
    (hn : samples.length = n) (ht : 0 < asset.target.total) (hex : exchanges ≠ []) :
    ∃ imbalRatios res,
      testReserveRebalanceQuad reserveAmntSeed samples exchanges asset =
        Except.ok (imbalRatios, res) ∧
      imbalRatios.length = n ∧ res.length = n ∧
      imbalRatios.Sorted (· ≤ ·) ∧
      ∀ x ∈ res, -(5/1000) ≤ x ∧ x ≤ 4/1000 := by
  obtain ⟨ex, exs, rfl⟩ := List.exists_cons_of_ne_nil hex
  have hmapM := mapM_ok_of_all_ok
    (fun i =>
      match (AssetBalance.mk asset.id asset.symbol (reserveAmntSeed + i) 0
          (ex :: exs)).exchanges with
      | [] => Except.error PyErr.indexError
      | ex2 :: _ =>
        Except.ok (Coin.mk asset
          (AssetBalance.mk asset.id asset.symbol (reserveAmntSeed + i) 0 (ex :: exs))
          ex2.available))
    (fun i =>
      Coin.mk asset
        (AssetBalance.mk asset.id asset.symbol (reserveAmntSeed + i) 0 (ex :: exs))
        ex.available)
    (fun i => rfl) (randReservBalanceOffset samples)
  refine ⟨((randReservBalanceOffset samples).map
      (fun i =>
        Coin.mk asset
          (AssetBalance.mk asset.id asset.symbol (reserveAmntSeed + i) 0 (ex :: exs))
          ex.available)).map Coin.imbalanceRatio,
    ((randReservBalanceOffset samples).map
      (fun i =>
        Coin.mk asset
          (AssetBalance.mk asset.id asset.symbol (reserveAmntSeed + i) 0 (ex :: exs))
          ex.available)).map (fun c => c.rebalancePriceOffset 0.004 (-0.005)),
    ?_, ?_, ?_, ?_, ?_⟩
  · simp only [testReserveRebalanceQuad]
    rw [hmapM]
  · simp [randReservBalanceOffset, hn]
  · simp [randReservBalanceOffset, hn]
  · rw [List.map_map]
    refine List.Pairwise.map _ ?_ (List.sorted_mergeSort' samples)
    intro a b hab
    simp only [Function.comp, Coin.imbalanceRatio, Coin.imbalance, AssetBalance.total]
    rw [div_le_div_iff_of_pos_right ht]
    rw [foldl_exchangeNet (ex :: exs) (reserveAmntSeed + a + 0),
      foldl_exchangeNet (ex :: exs) (reserveAmntSeed + b + 0)]
    linarith
  · intro x hx
    simp only [List.mem_map] at hx
    obtain ⟨c, -, rfl⟩ := hx
    have hb := rebalancePriceOffset_le_bounds c 0.004 (-0.005) (by norm_num)
    have h5 : (-0.005 : ℚ) = -(5/1000) := by norm_num
    have h4 : (0.004 : ℚ) = 4/1000 := by norm_num
    rw [h5, h4] at hb
    rw [h5, h4]
    exact hb

/-- Witness for C9 at a concrete two-sample input. -/
theorem testReserveRebalanceQuad_spec_witness :
    ([0, 1] : List ℚ).length = 2 ∧
    0 < (Asset.mk 0 "USDT" 6 (RebalanceQuadratic.mk 0 0 0 0 0 0 0)
      (AssetTarget.mk 1000 0 0 0 0 0) 0).target.total ∧
    ([ExchangeBalance.mk 0 0 (MarginBalance.mk 0 0)] : List ExchangeBalance) ≠ [] ∧
    ∃ imbalRatios res,
      testReserveRebalanceQuad 1200 [0, 1] [ExchangeBalance.mk 0 0 (MarginBalance.mk 0 0)]
        (Asset.mk 0 "USDT" 6 (RebalanceQuadratic.mk 0 0 0 0 0 0 0)
          (AssetTarget.mk 1000 0 0 0 0 0) 0) = Except.ok (imbalRatios, res) ∧
      imbalRatios.length = 2 ∧ res.length = 2 ∧ imbalRatios.Sorted (· ≤ ·) ∧
      ∀ x ∈ res, -(5/1000) ≤ x ∧ x ≤ 4/1000 :=
  ⟨rfl, by norm_num, by simp,
    testReserveRebalanceQuad_spec 1200 [0, 1]
      [ExchangeBalance.mk 0 0 (MarginBalance.mk 0 0)]
      (Asset.mk 0 "USDT" 6 (RebalanceQuadratic.mk 0 0 0 0 0 0 0)
        (AssetTarget.mk 1000 0 0 0 0 0) 0) 2 rfl (by norm_num) (by simp)⟩

end KyberReserve
